import Mathlib

/-!
Shallow embedding of the Chandy-Lamport snapshot simulator
(`src/controller.ts`: classes `Message`, `VirtualConnection`, `SnapshotTask`,
`VirtualPeer`, and the module-level `connect` helper).

Peers are identified by natural numbers (the TypeScript code compares peer
object references with `===`; distinct peers are distinct objects, which we
model by distinct ids).  A peer's mutable state (`resources`, `connections`,
`snapshotTasks`) becomes a `PeerState` record, and the mutating methods become
functions `PeerState → PeerState × Effects`, where `Effects` records the
messages handed to `VirtualConnection.send` (by outbound-connection index) and
the completion reports printed by the `快照 ... 已完成` log line.

JavaScript `indexOf` returns `-1` for an absent element, and reading or
writing index `-1` of an array touches no array element; the embedding
mirrors that observable behaviour (reads default to `false`, writes are
dropped).  All claims below concern senders that are connected peers, where
the index is in range and nothing subtle happens.
-/

/-- Peer identities (TypeScript compares `VirtualPeer` references with `===`). -/
abbrev PeerId := Nat

/-- `class Message`: `type ∈ {'resource', 'snapshot'}` with a numeric `value`
(the transferred amount, resp. the snapshot/epoch id). -/
inductive Msg where
  | resource (value : Int)
  | snapshot (value : Int)
deriving Repr, DecidableEq

/-- `class SnapshotTask`: per-peer, per-epoch protocol state.
`receiveStatus` holds one closed-flag per connection (false = still
listening), `capturedResources` the resource vector (one entry per channel
plus the balance captured at creation). -/
structure SnapshotTask where
  id : Int
  receiveStatus : List Bool
  capturedResources : List Int
deriving Repr, DecidableEq

/-- The mutable fields of `class VirtualPeer`: `resources` (the balance),
`connections` (kept as the list of remote peer ids, in connect order, together
with their delays — the remote id is all `handleMessage` inspects), and
`snapshotTasks`. -/
structure PeerState where
  resources : Int
  connRemotes : List PeerId
  snapshotTasks : List SnapshotTask
deriving Repr, DecidableEq

/-- Observable side effects of one operation: messages passed to
`VirtualConnection.send`, tagged by the index of the outbound connection used,
and epoch-completion reports `(epochId, resourceVector)`. -/
structure Effects where
  sends : List (Nat × Msg)
  reports : List (Int × List Int)
deriving Repr, DecidableEq

/-- `this.connections.map(k => k.send(message))`: the same message goes out on
every outbound connection, in connection order. -/
def forwardAll (s : PeerState) (m : Msg) : List (Nat × Msg) :=
  (List.range s.connRemotes.length).map (fun i => (i, m))

/-- The `SnapshotTask` built on first marker receipt (`handleMessage`, snapshot
branch): closed-flags all false, vector entries zero, final entry the current
balance. -/
def freshTask (v : Int) (s : PeerState) : SnapshotTask :=
  { id := v
    receiveStatus := s.connRemotes.map (fun _ => false)
    capturedResources := s.connRemotes.map (fun _ => (0 : Int)) ++ [s.resources] }

/-- Replace the first task whose id matches `v` (the TypeScript code mutates
the task object returned by `snapshotTasks.find`, i.e. the first match). -/
def replaceFirst (v : Int) (t' : SnapshotTask) : List SnapshotTask → List SnapshotTask
  | [] => []
  | x :: xs => if x.id == v then t' :: xs else x :: replaceFirst v t' xs

/-- `handleMessage`, `message.type === 'snapshot'` branch.  `remote = none`
models the sender-less marker used by `initiateSnapshot`. -/
def handleSnapshot (v : Int) (remote : Option PeerId) (s : PeerState) :
    PeerState × Effects :=
  let found := s.snapshotTasks.find? (fun t => t.id == v)
  let task := found.getD (freshTask v s)
  let existed := found.isSome
  let tasks0 := if existed then s.snapshotTasks else s.snapshotTasks ++ [task]
  match remote with
  | none =>
      -- originator: forward on every outbound connection, close nothing
      ({ s with snapshotTasks := tasks0 }, ⟨forwardAll s (.snapshot v), []⟩)
  | some r =>
      let idx := s.connRemotes.indexOf r
      if task.receiveStatus.getD idx false then
        -- duplicate marker on an already-closed channel: idempotent discard
        ({ s with snapshotTasks := tasks0 }, ⟨[], []⟩)
      else
        let task' := { task with receiveStatus := task.receiveStatus.set idx true }
        let tasks' := if existed then replaceFirst v task' s.snapshotTasks
                      else s.snapshotTasks ++ [task']
        if (task'.receiveStatus.filter (fun k => !k)).length == 0 then
          -- all channels closed: report the vector, forward nothing
          ({ s with snapshotTasks := tasks' }, ⟨[], [(task'.id, task'.capturedResources)]⟩)
        else
          ({ s with snapshotTasks := tasks' }, ⟨forwardAll s (.snapshot v), []⟩)

/-- Mark channel `idx` closed in a task (`snapshot.receiveStatus[remoteIndex]
= true`); used to state reduction lemmas about the marker branch. -/
def closeFlag (idx : Nat) (t : SnapshotTask) : SnapshotTask :=
  { t with receiveStatus := t.receiveStatus.set idx true }

/-- One step of the in-transit rule: if the task is still listening on
channel `idx`, add the transfer amount to its vector entry for that channel
(`task.capturedResources[remoteIndex] += message.value`). -/
def creditTask (idx : Nat) (v : Int) (task : SnapshotTask) : SnapshotTask :=
  if task.receiveStatus.getD idx false then task
  else { task with capturedResources :=
           task.capturedResources.set idx (task.capturedResources.getD idx 0 + v) }

/-- `handleMessage`, `message.type === 'resource'` branch: credit the amount,
then add it to the vector entry of the sender's channel in every task still
listening on that channel.  An unknown (or absent) sender gives JavaScript
index `-1`, whose read is undefined (falsy) and whose write touches no array
element, so the tasks' vectors are unchanged in that case. -/
def handleResource (v : Int) (remote : Option PeerId) (s : PeerState) :
    PeerState × Effects :=
  let s1 := { s with resources := s.resources + v }
  match remote.bind (fun r => s.connRemotes.findIdx? (fun x => x == r)) with
  | none => (s1, ⟨[], []⟩)
  | some idx =>
      ({ s1 with snapshotTasks := s.snapshotTasks.map (creditTask idx v) }, ⟨[], []⟩)

/-- `VirtualPeer.handleMessage(message, remote?)`. -/
def handleMessage (m : Msg) (remote : Option PeerId) (s : PeerState) :
    PeerState × Effects :=
  match m with
  | .snapshot v => handleSnapshot v remote s
  | .resource v => handleResource v remote s

/-- `VirtualPeer.initiateSnapshot(id)`: the peer pretends to receive a
sender-less snapshot marker. -/
def initiateSnapshot (v : Int) (s : PeerState) : PeerState × Effects :=
  handleMessage (.snapshot v) none s

/-- `VirtualPeer.initiatePayment(receiver, amount)`: debit first, then look up
the outbound connection to `receiver` and send on it.  When no connection
exists, `connections.find(...)` is `undefined` and `.send` throws a
synchronous `TypeError`; the debit has already happened. -/
def initiatePayment (receiver : PeerId) (amount : Int) (s : PeerState) :
    PeerState × Except String (Nat × Msg) :=
  let s' := { s with resources := s.resources - amount }
  match s'.connRemotes.findIdx? (fun r => r == receiver) with
  | some i => (s', .ok (i, .resource amount))
  | none => (s', .error "TypeError: undefined connection to receiver")

/-- Well-formedness maintained by `connect`-built topologies: every task's
flag vector has one entry per connection and its resource vector one more. -/
def PeerState.WF (s : PeerState) : Prop :=
  ∀ t ∈ s.snapshotTasks, t.receiveStatus.length = s.connRemotes.length ∧
    t.capturedResources.length = s.connRemotes.length + 1

instance (s : PeerState) : Decidable s.WF := by
  unfold PeerState.WF; infer_instance

/-- The closed-flag of channel `idx` for epoch `v`, as `handleMessage` reads
it (`false` when no task exists or the index is out of range). -/
def channelClosed (s : PeerState) (v : Int) (idx : Nat) : Bool :=
  match s.snapshotTasks.find? (fun t => t.id == v) with
  | some t => t.receiveStatus.getD idx false
  | none => false

/-- At most one `SnapshotTask` per epoch id. -/
def UniqueEpochs (s : PeerState) : Prop :=
  (s.snapshotTasks.map (fun t => t.id)).Nodup

instance (s : PeerState) : Decidable (UniqueEpochs s) := by
  unfold UniqueEpochs; infer_instance

/-- Modelled from the spec: the discrete-event scheduler behind
`VirtualConnection.send` is the JavaScript timer queue, which is not part of
the repository's sources.  Spec §5 describes it as a shared time-ordered
event queue: `send` at simulated time `sendTime` on a channel of fixed
`delay` schedules one delivery; `seq` is the global scheduling order (a timer
registered earlier fires first among equal deadlines, and each delivery
callback runs to completion). -/
structure ScheduledDelivery where
  channel : Nat
  sendTime : Nat
  seq : Nat
  delay : Nat
  msg : Msg
deriving Repr, DecidableEq

/-- Modelled from the spec: a delivery scheduled at simulated time T fires no
earlier than T; `send` at `sendTime` on a channel of fixed `delay` fires at
`sendTime + delay`. -/
def deliveryTime (e : ScheduledDelivery) : Nat :=
  e.sendTime + e.delay

/-- Modelled from the spec: the dispatch order of the time-ordered event
queue — earlier deadline first, and among equal deadlines the delivery that
was scheduled first. -/
def deliveredBefore (e₁ e₂ : ScheduledDelivery) : Prop :=
  deliveryTime e₁ < deliveryTime e₂ ∨
    (deliveryTime e₁ = deliveryTime e₂ ∧ e₁.seq < e₂.seq)

instance (e₁ e₂ : ScheduledDelivery) : Decidable (deliveredBefore e₁ e₂) := by
  unfold deliveredBefore; infer_instance

/-- Example peer used to witness theorems with hypotheses: balance 100,
connected to peers 1 and 2, no snapshot task yet. -/
def exA : PeerState :=
  { resources := 100, connRemotes := [1, 2], snapshotTasks := [] }

/-- Example peer: balance 40, connected back to peer 0. -/
def exB : PeerState :=
  { resources := 40, connRemotes := [0], snapshotTasks := [] }

/-- Example peer with a snapshot task for epoch 7 whose channel 0 is already
closed. -/
def exDup : PeerState :=
  { resources := 50, connRemotes := [2, 3],
    snapshotTasks := [⟨7, [true, false], [0, 4, 50]⟩] }

/-- Example peer with a snapshot task for epoch 5 still listening on both
channels. -/
def exOpen : PeerState :=
  { resources := 60, connRemotes := [2, 3],
    snapshotTasks := [⟨5, [false, false], [0, 0, 60]⟩] }

/-! ### Claim C4: duplicate marker on a closed channel is a strict no-op -/

/-- **C4.** A peer with an existing `SnapshotTask` for an epoch that receives a
snapshot-marker for that epoch from a sender whose channel's closed-flag is
already true changes no state at all — no balance change, no flag change, no
vector change, no new task — and sends and reports nothing. -/
theorem duplicate_marker_is_noop (s : PeerState) (v : Int) (r : PeerId)
    (t : SnapshotTask)
    (hfind : s.snapshotTasks.find? (fun t => t.id == v) = some t)
    (hclosed : t.receiveStatus.getD (s.connRemotes.indexOf r) false = true) :
    handleMessage (.snapshot v) (some r) s = (s, ⟨[], []⟩) := by
  simp only [handleMessage, handleSnapshot, hfind, Option.getD_some, Option.isSome_some,
    if_true, hclosed, if_pos]

/-- Witness for C4 at a concrete peer state. -/
theorem duplicate_marker_is_noop_witness :
    handleMessage (.snapshot 7) (some 2) exDup = (exDup, ⟨[], []⟩) :=
  duplicate_marker_is_noop exDup 7 2 ⟨7, [true, false], [0, 4, 50]⟩
    (by decide) (by decide)


/-! ### Claim C6: unknown receiver fails synchronously, nothing is sent -/

/-- **C6.** `initiatePayment(receiver, amount)` on a peer with no outbound
connection whose remote end is `receiver` fails with a synchronous error
(`connections.find` yields `undefined` and calling `.send` on it throws), and
no message is handed to any connection. -/
theorem unknown_receiver_fails_sends_nothing (s : PeerState) (receiver : PeerId)
    (amount : Int) (h : s.connRemotes.findIdx? (fun r => r == receiver) = none) :
    (∃ e, (initiatePayment receiver amount s).2 = Except.error e) ∧
      ∀ i m, (initiatePayment receiver amount s).2 ≠ Except.ok (i, m) := by
  have heq : initiatePayment receiver amount s
      = ({ s with resources := s.resources - amount },
         .error "TypeError: undefined connection to receiver") := by
    simp only [initiatePayment, h]
  rw [heq]
  exact ⟨⟨_, rfl⟩, fun i m h' => Except.noConfusion h'⟩

/-- Witness for C6: a peer connected to peers 1 and 2 pays unknown peer 9. -/
theorem unknown_receiver_fails_sends_nothing_witness :
    (∃ e, (initiatePayment 9 10 exA).2 = Except.error e) ∧
      ∀ i m, (initiatePayment 9 10 exA).2 ≠ Except.ok (i, m) :=
  unknown_receiver_fails_sends_nothing exA 9 10 (by decide)

/-! ### Claim C10: the failed payment is not atomic — the debit survives -/

/-- **C10.** When `initiatePayment` fails because no connection to `receiver`
exists, the caller's balance has nonetheless already been decreased by
`amount` at the moment the error is raised: the debit
(`this.resources -= amount`) precedes the connection lookup and there is no
rollback. -/
theorem failed_payment_keeps_debit (s : PeerState) (receiver : PeerId)
    (amount : Int) (h : s.connRemotes.findIdx? (fun r => r == receiver) = none) :
    (initiatePayment receiver amount s).1.resources = s.resources - amount ∧
      ∃ e, (initiatePayment receiver amount s).2 = Except.error e := by
  have heq : initiatePayment receiver amount s
      = ({ s with resources := s.resources - amount },
         .error "TypeError: undefined connection to receiver") := by
    simp only [initiatePayment, h]
  rw [heq]
  exact ⟨rfl, ⟨_, rfl⟩⟩

/-- Witness for C10: after the failing payment of 10, the balance is 90. -/
theorem failed_payment_keeps_debit_witness :
    (initiatePayment 9 10 exA).1.resources = exA.resources - 10 ∧
      ∃ e, (initiatePayment 9 10 exA).2 = Except.error e :=
  failed_payment_keeps_debit exA 9 10 (by decide)

/-! ### Claim C7: transfer conservation between two connected peers -/

/-- **C7.** For connected peers A and B and any amount: A's balance drops by
the amount at send time, the message sent is the resource-transfer of that
amount on the connection to B, B's balance rises by the amount at delivery,
and the sum of the two balances sampled before the send equals the sum
sampled after the delivery. -/
theorem transfer_conservation (sA sB : PeerState) (aId bId : PeerId)
    (amt : Int) (i : Nat)
    (hconn : sA.connRemotes.findIdx? (fun r => r == bId) = some i) :
    (initiatePayment bId amt sA).1.resources = sA.resources - amt ∧
    (initiatePayment bId amt sA).2 = Except.ok (i, Msg.resource amt) ∧
    (handleMessage (.resource amt) (some aId) sB).1.resources = sB.resources + amt ∧
    (initiatePayment bId amt sA).1.resources
        + (handleMessage (.resource amt) (some aId) sB).1.resources
      = sA.resources + sB.resources := by
  have hsend : initiatePayment bId amt sA
      = ({ sA with resources := sA.resources - amt }, .ok (i, .resource amt)) := by
    simp only [initiatePayment, hconn]
  have hrecv : (handleMessage (.resource amt) (some aId) sB).1.resources
      = sB.resources + amt := by
    simp only [handleMessage, handleResource, Option.bind_some]
    cases h : sB.connRemotes.findIdx? (fun x => x == aId) <;> simp [h]
  refine ⟨by rw [hsend], by rw [hsend], hrecv, ?_⟩
  rw [hsend, hrecv]
  ring

/-- Witness for C7: peer 0 (balance 100) pays 35 to peer 1 (balance 40). -/
theorem transfer_conservation_witness :
    (initiatePayment 1 35 exA).1.resources = exA.resources - 35 ∧
    (initiatePayment 1 35 exA).2 = Except.ok (0, Msg.resource 35) ∧
    (handleMessage (.resource 35) (some 0) exB).1.resources = exB.resources + 35 ∧
    (initiatePayment 1 35 exA).1.resources
        + (handleMessage (.resource 35) (some 0) exB).1.resources
      = exA.resources + exB.resources :=
  transfer_conservation exA exB 0 1 35 0 (by decide)

/-! ### Claim C9: FIFO per channel -/

/-- **C9.** Delivery is FIFO per channel: two deliveries scheduled on the same
channel (hence with the channel's one fixed non-negative delay), the first
sent no later and scheduled earlier, are dispatched in sending order by the
time-ordered event queue. -/
theorem fifo_per_channel (e₁ e₂ : ScheduledDelivery)
    (hch : e₁.channel = e₂.channel) (hdelay : e₁.delay = e₂.delay)
    (htime : e₁.sendTime ≤ e₂.sendTime) (hseq : e₁.seq < e₂.seq) :
    deliveredBefore e₁ e₂ := by
  unfold deliveredBefore deliveryTime
  omega

/-- Witness for C9: two messages sent at times 3 and 5 on channel 0 with
delay 7. -/
theorem fifo_per_channel_witness :
    deliveredBefore ⟨0, 3, 0, 7, .resource 35⟩ ⟨0, 5, 1, 7, .snapshot 201⟩ :=
  fifo_per_channel ⟨0, 3, 0, 7, .resource 35⟩ ⟨0, 5, 1, 7, .snapshot 201⟩
    rfl rfl (by decide) (by decide)

/-! ### Helper lemmas shared by several claims -/

theorem creditTask_id (idx : Nat) (v : Int) (t : SnapshotTask) :
    (creditTask idx v t).id = t.id := by
  unfold creditTask; split <;> rfl

theorem creditTask_receiveStatus (idx : Nat) (v : Int) (t : SnapshotTask) :
    (creditTask idx v t).receiveStatus = t.receiveStatus := by
  unfold creditTask; split <;> rfl

theorem findIdx?_lt_length {α : Type} {p : α → Bool} {l : List α} {i : Nat}
    (h : l.findIdx? p = some i) : i < l.length := by
  rcases List.findIdx?_eq_some_iff_getElem.mp h with ⟨h1, -, -⟩
  exact h1

/-! ### Claim C3: inbound resource transfers credit open channels only -/

/-- **C3.** Receiving a resource-transfer of amount `a` from a connected
sender `r` (whose inbound channel has index `idx`) increases the balance by
exactly `a`; in every snapshot task the vector entry for that channel grows
by `a` exactly when the task's closed-flag for the channel is still false,
all other entries are untouched, and tasks whose flag is already true are
completely unchanged. -/
theorem resource_transfer_credits (s : PeerState) (r : PeerId) (a : Int) (idx : Nat)
    (hwf : s.WF) (hidx : s.connRemotes.findIdx? (fun x => x == r) = some idx) :
    (handleMessage (.resource a) (some r) s).1.resources = s.resources + a ∧
    (handleMessage (.resource a) (some r) s).1.snapshotTasks.length
        = s.snapshotTasks.length ∧
    ∀ (j : Nat) (t : SnapshotTask), s.snapshotTasks[j]? = some t →
      ∃ t', (handleMessage (.resource a) (some r) s).1.snapshotTasks[j]? = some t' ∧
        t'.id = t.id ∧ t'.receiveStatus = t.receiveStatus ∧
        (t.receiveStatus.getD idx false = true → t' = t) ∧
        (t.receiveStatus.getD idx false = false →
          t'.capturedResources.getD idx 0 = t.capturedResources.getD idx 0 + a ∧
          ∀ i2, i2 ≠ idx →
            t'.capturedResources.getD i2 0 = t.capturedResources.getD i2 0) := by
  have hred : handleMessage (.resource a) (some r) s
      = ({ resources := s.resources + a, connRemotes := s.connRemotes,
           snapshotTasks := s.snapshotTasks.map (creditTask idx a) }, ⟨[], []⟩) := by
    simp only [handleMessage, handleResource, Option.some_bind, hidx]
  rw [hred]
  refine ⟨rfl, List.length_map _ _, ?_⟩
  intro j t hj
  refine ⟨creditTask idx a t, ?_, creditTask_id idx a t,
    creditTask_receiveStatus idx a t, ?_, ?_⟩
  · simp [List.getElem?_map, hj]
  · intro hclosed
    unfold creditTask
    rw [if_pos hclosed]
  · intro hopenflag
    have hmem : t ∈ s.snapshotTasks := List.getElem?_mem hj
    have hlen : t.capturedResources.length = s.connRemotes.length + 1 := (hwf t hmem).2
    have hidxlt : idx < t.capturedResources.length := by
      have := findIdx?_lt_length hidx
      omega
    unfold creditTask
    rw [if_neg (by rw [hopenflag]; exact Bool.false_ne_true)]
    constructor
    · simp [List.getD_eq_getElem?_getD, List.getElem?_set_self hidxlt]
    · intro i2 hne
      simp [List.getD_eq_getElem?_getD, List.getElem?_set_ne (Ne.symm hne)]

/-- Witness for C3: peer `exOpen` (task for epoch 5 open on both channels)
receives 35 from peer 3 on channel index 1. -/
theorem resource_transfer_credits_witness :
    (handleMessage (.resource 35) (some 3) exOpen).1.resources
        = exOpen.resources + 35 ∧
    (handleMessage (.resource 35) (some 3) exOpen).1.snapshotTasks.length
        = exOpen.snapshotTasks.length ∧
    ∀ (j : Nat) (t : SnapshotTask), exOpen.snapshotTasks[j]? = some t →
      ∃ t', (handleMessage (.resource 35) (some 3) exOpen).1.snapshotTasks[j]? = some t' ∧
        t'.id = t.id ∧ t'.receiveStatus = t.receiveStatus ∧
        (t.receiveStatus.getD 1 false = true → t' = t) ∧
        (t.receiveStatus.getD 1 false = false →
          t'.capturedResources.getD 1 0 = t.capturedResources.getD 1 0 + 35 ∧
          ∀ i2, i2 ≠ 1 →
            t'.capturedResources.getD i2 0 = t.capturedResources.getD i2 0) :=
  resource_transfer_credits exOpen 3 35 1 (by decide) (by decide)

/-! ### Claim C5: snapshot initiation is the sender-less marker -/

/-- **C5.** `initiateSnapshot(epochId)` behaves as receiving a snapshot-marker
with no sender: the marker is forwarded unconditionally on every outbound
channel, nothing is reported, the balance is untouched, and no inbound
channel's closed-flag is set — the task list is either unchanged or extended
by the all-open fresh task, so every task afterwards is an old task or has
every flag false — regardless of whether a task for the epoch already
existed. -/
theorem initiate_snapshot_forwards_unconditionally (s : PeerState) (v : Int) :
    initiateSnapshot v s = handleMessage (.snapshot v) none s ∧
    (initiateSnapshot v s).2.sends = forwardAll s (.snapshot v) ∧
    (initiateSnapshot v s).2.reports = [] ∧
    (initiateSnapshot v s).1.resources = s.resources ∧
    ((initiateSnapshot v s).1.snapshotTasks = s.snapshotTasks ∨
      (initiateSnapshot v s).1.snapshotTasks = s.snapshotTasks ++ [freshTask v s]) ∧
    ∀ t ∈ (initiateSnapshot v s).1.snapshotTasks,
      t ∈ s.snapshotTasks ∨
        t.receiveStatus = List.replicate s.connRemotes.length false := by
  refine ⟨rfl, ?_⟩
  rcases hf : s.snapshotTasks.find? (fun t => t.id == v) with - | t
  · have hred : initiateSnapshot v s
        = ({ resources := s.resources, connRemotes := s.connRemotes,
             snapshotTasks := s.snapshotTasks ++ [freshTask v s] },
           ⟨forwardAll s (.snapshot v), []⟩) := by
      simp only [initiateSnapshot, handleMessage, handleSnapshot, hf,
        Option.isSome_none, Option.getD_none, Bool.false_eq_true, if_false]
    rw [hred]
    refine ⟨rfl, rfl, rfl, Or.inr rfl, ?_⟩
    intro t ht
    rcases List.mem_append.mp ht with hl | hr
    · exact Or.inl hl
    · have : t = freshTask v s := by simpa using hr
      subst this
      exact Or.inr (List.map_const' _ _)
  · have hred : initiateSnapshot v s
        = ({ resources := s.resources, connRemotes := s.connRemotes,
             snapshotTasks := s.snapshotTasks },
           ⟨forwardAll s (.snapshot v), []⟩) := by
      simp only [initiateSnapshot, handleMessage, handleSnapshot, hf,
        Option.isSome_some, if_true]
    rw [hred]
    exact ⟨rfl, rfl, rfl, Or.inl rfl, fun t ht => Or.inl ht⟩

/-- Witness for C5 at peer `exDup` (which already has a task for epoch 7),
initiating epoch 7 again. -/
theorem initiate_snapshot_forwards_unconditionally_witness :
    (initiateSnapshot 7 exDup).2.sends = forwardAll exDup (.snapshot 7) ∧
    ∀ t ∈ (initiateSnapshot 7 exDup).1.snapshotTasks,
      t ∈ exDup.snapshotTasks ∨
        t.receiveStatus = List.replicate exDup.connRemotes.length false :=
  ⟨(initiate_snapshot_forwards_unconditionally exDup 7).2.1,
   (initiate_snapshot_forwards_unconditionally exDup 7).2.2.2.2.2⟩

/-! ### More helper lemmas (marker-branch shapes) -/

theorem freshTask_flag (v : Int) (s : PeerState) (i : Nat) :
    (freshTask v s).receiveStatus.getD i false = false := by
  unfold freshTask
  simp only [List.map_const']
  rcases Nat.lt_or_ge i s.connRemotes.length with hlt | hge
  · simp [List.getD_eq_getElem?_getD, List.getElem?_replicate, hlt]
  · simp [List.getD_eq_getElem?_getD, List.getElem?_replicate, Nat.not_lt.mpr hge]

theorem replaceFirst_map_id (v : Int) (t' : SnapshotTask) (hv : t'.id = v)
    (l : List SnapshotTask) :
    (replaceFirst v t' l).map (fun t => t.id) = l.map (fun t => t.id) := by
  induction l with
  | nil => rfl
  | cons x xs ih =>
    unfold replaceFirst
    by_cases hx : x.id = v
    · rw [if_pos (by simp [hx])]
      simp [hv, hx]
    · rw [if_neg (by simp [hx])]
      simp only [List.map_cons, ih]

theorem id_not_mem_of_find?_none {l : List SnapshotTask} {v : Int}
    (h : l.find? (fun t => t.id == v) = none) :
    v ∉ l.map (fun t => t.id) := by
  intro hmem
  rcases List.mem_map.mp hmem with ⟨t, htl, hid⟩
  exact List.find?_eq_none.mp h t htl (by simp [hid])

/-- Shape of the task list after the snapshot-marker branch: unchanged (a
task already existed), or one new task derived from the fresh task appended
when none existed, or the first task with the epoch's id replaced by one with
the same id and the same resource vector. -/
theorem handleSnapshot_tasks_shape (v : Int) (remote : Option PeerId)
    (s : PeerState) :
    (∃ t0 : SnapshotTask, s.snapshotTasks.find? (fun t => t.id == v) = some t0 ∧
      (handleSnapshot v remote s).1.snapshotTasks = s.snapshotTasks) ∨
    (∃ x : SnapshotTask, x.id = v ∧
      s.snapshotTasks.find? (fun t => t.id == v) = none ∧
      x.capturedResources = (freshTask v s).capturedResources ∧
      x.receiveStatus.length = s.connRemotes.length ∧
      (handleSnapshot v remote s).1.snapshotTasks = s.snapshotTasks ++ [x]) ∨
    (∃ t0 x : SnapshotTask,
      s.snapshotTasks.find? (fun t => t.id == v) = some t0 ∧ x.id = v ∧
      x.capturedResources = t0.capturedResources ∧
      (handleSnapshot v remote s).1.snapshotTasks
        = replaceFirst v x s.snapshotTasks) := by
  rcases hf : s.snapshotTasks.find? (fun t => t.id == v) with - | t
  · rcases remote with - | r
    · right; left
      exact ⟨freshTask v s, rfl, hf, rfl, by simp [freshTask], by
        simp only [handleSnapshot, hf, Option.getD_none, Option.isSome_none,
          Bool.false_eq_true, if_false]⟩
    · right; left
      refine ⟨{ freshTask v s with receiveStatus :=
          (freshTask v s).receiveStatus.set (s.connRemotes.indexOf r) true },
        rfl, hf, rfl, by simp [freshTask], ?_⟩
      simp only [handleSnapshot, hf, Option.getD_none, Option.isSome_none,
        Bool.false_eq_true, if_false]
      rw [if_neg (by rw [freshTask_flag]; exact Bool.false_ne_true)]
      split <;> rfl
  · have hid : t.id = v := by simpa using List.find?_some hf
    rcases remote with - | r
    · left
      exact ⟨t, hf, by
        simp only [handleSnapshot, hf, Option.getD_some, Option.isSome_some, if_true]⟩
    · by_cases hdup : t.receiveStatus.getD (s.connRemotes.indexOf r) false = true
      · left
        exact ⟨t, hf, by
          simp only [handleSnapshot, hf, Option.getD_some, Option.isSome_some,
            if_true, hdup, if_pos]⟩
      · right; right
        refine ⟨t, { t with receiveStatus :=
            t.receiveStatus.set (s.connRemotes.indexOf r) true }, hf, hid, rfl, ?_⟩
        simp only [handleSnapshot, hf, Option.getD_some, Option.isSome_some, if_true]
        rw [if_neg hdup]
        split <;> rfl

/-! ### Claim C8: at most one SnapshotTask per epoch id -/

/-- **C8.** Every operation — `handleMessage` for both message kinds,
`initiateSnapshot`, `initiatePayment` — preserves the invariant that the
peer's `snapshotTasks` list holds at most one task per epoch id. -/
theorem at_most_one_task_per_epoch (s : PeerState) (h : UniqueEpochs s) :
    (∀ (m : Msg) (remote : Option PeerId), UniqueEpochs (handleMessage m remote s).1) ∧
    (∀ v : Int, UniqueEpochs (initiateSnapshot v s).1) ∧
    (∀ (receiver : PeerId) (amount : Int),
      UniqueEpochs (initiatePayment receiver amount s).1) := by
  have hmsg : ∀ (m : Msg) (remote : Option PeerId),
      UniqueEpochs (handleMessage m remote s).1 := by
    intro m remote
    cases m with
    | resource a =>
      rcases remote with - | r
      · exact h
      · rcases hfi : s.connRemotes.findIdx? (fun x => x == r) with - | idx
        · have : (handleMessage (.resource a) (some r) s).1.snapshotTasks
              = s.snapshotTasks := by
            simp only [handleMessage, handleResource, Option.some_bind, hfi]
          unfold UniqueEpochs
          rw [this]
          exact h
        · have hts : (handleMessage (.resource a) (some r) s).1.snapshotTasks
              = s.snapshotTasks.map (creditTask idx a) := by
            simp only [handleMessage, handleResource, Option.some_bind, hfi]
          unfold UniqueEpochs
          rw [hts, List.map_map]
          have hcomp : ((fun t : SnapshotTask => t.id) ∘ creditTask idx a)
              = fun t : SnapshotTask => t.id :=
            funext fun t => creditTask_id idx a t
          rw [hcomp]
          exact h
    | snapshot v =>
      have hsh : (handleMessage (.snapshot v) remote s).1
          = (handleSnapshot v remote s).1 := rfl
      unfold UniqueEpochs
      rw [hsh]
      rcases handleSnapshot_tasks_shape v remote s with ⟨t0, -, heq⟩ |
        ⟨x, hx, hf, -, -, heq⟩ | ⟨t0, x, -, hx, -, heq⟩
      · rw [heq]; exact h
      · rw [heq]
        rw [List.map_append]
        rw [List.nodup_append]
        exact ⟨h, List.nodup_singleton _,
          by simpa [hx] using id_not_mem_of_find?_none hf⟩
      · rw [heq, replaceFirst_map_id v x hx]
        exact h
  refine ⟨hmsg, fun v => hmsg (.snapshot v) none, ?_⟩
  intro receiver amount
  unfold UniqueEpochs
  have : (initiatePayment receiver amount s).1.snapshotTasks = s.snapshotTasks := by
    unfold initiatePayment
    rcases hfi : s.connRemotes.findIdx? (fun r => r == receiver) with - | i <;>
      simp only [hfi]
  rw [this]
  exact h

/-- Witness for C8 at peer `exDup`: the invariant holds before and after a
marker, an initiation and a payment. -/
theorem at_most_one_task_per_epoch_witness :
    UniqueEpochs exDup ∧
    UniqueEpochs (handleMessage (.snapshot 7) (some 3) exDup).1 ∧
    UniqueEpochs (initiateSnapshot 9 exDup).1 ∧
    UniqueEpochs (initiatePayment 2 10 exDup).1 :=
  ⟨by decide,
   (at_most_one_task_per_epoch exDup (by decide)).1 (.snapshot 7) (some 3),
   (at_most_one_task_per_epoch exDup (by decide)).2.1 9,
   (at_most_one_task_per_epoch exDup (by decide)).2.2 2 10⟩

/-! ### Helper lemmas for the marker-closing claim -/

theorem completion_iff_all (l : List Bool) :
    (((l.filter (fun k => !k)).length == 0) = true) ↔ l.all (fun b => b) = true := by
  simp [List.length_eq_zero, List.filter_eq_nil_iff, List.all_eq_true]

theorem find?_replaceFirst {l : List SnapshotTask} {v : Int} {t x : SnapshotTask}
    (hf : l.find? (fun k => k.id == v) = some t) (hx : x.id = v) :
    (replaceFirst v x l).find? (fun k => k.id == v) = some x := by
  induction l with
  | nil => simp at hf
  | cons y ys ih =>
    by_cases hy : y.id = v
    · unfold replaceFirst
      rw [if_pos (by simp [hy])]
      exact List.find?_cons_of_pos _ (by simp [hx])
    · unfold replaceFirst
      rw [if_neg (by simp [hy])]
      rw [List.find?_cons_of_neg _ (by simp [hy])] at hf
      rw [List.find?_cons_of_neg _ (by simp [hy])]
      exact ih hf

/-- Reduction of the marker branch when no task exists yet and the sender is
handled: the fresh task gets the sender's flag set and is appended; the
effects depend on whether every flag is now set. -/
theorem handleSnapshot_close_new (v : Int) (r : PeerId) (s : PeerState)
    (hf : s.snapshotTasks.find? (fun t => t.id == v) = none) :
    handleSnapshot v (some r) s =
      (({ s with snapshotTasks := s.snapshotTasks ++
          [{ freshTask v s with receiveStatus :=
              (freshTask v s).receiveStatus.set (s.connRemotes.indexOf r) true }] }),
       if (((freshTask v s).receiveStatus.set
              (s.connRemotes.indexOf r) true).filter (fun k => !k)).length == 0 then
         ⟨[], [(v, (freshTask v s).capturedResources)]⟩
       else
         ⟨forwardAll s (.snapshot v), []⟩) := by
  simp only [handleSnapshot, hf, Option.getD_none, Option.isSome_none,
    Bool.false_eq_true, if_false]
  rw [if_neg (by rw [freshTask_flag]; exact Bool.false_ne_true)]
  split <;> rfl

/-- Reduction of the marker branch when a task exists and the sender's
channel is still open: the task's flag is set in place; the effects depend on
whether every flag is now set. -/
theorem handleSnapshot_close_existing (v : Int) (r : PeerId) (s : PeerState)
    (t : SnapshotTask)
    (hf : s.snapshotTasks.find? (fun t => t.id == v) = some t)
    (hopen : t.receiveStatus.getD (s.connRemotes.indexOf r) false = false) :
    handleSnapshot v (some r) s =
      (({ s with snapshotTasks :=
            replaceFirst v (closeFlag (s.connRemotes.indexOf r) t) s.snapshotTasks }),
       if ((t.receiveStatus.set
              (s.connRemotes.indexOf r) true).filter (fun k => !k)).length == 0 then
         ⟨[], [(t.id, t.capturedResources)]⟩
       else
         ⟨forwardAll s (.snapshot v), []⟩) := by
  simp only [handleSnapshot, hf, Option.getD_some, Option.isSome_some, if_true]
  rw [if_neg (by rw [hopen]; exact Bool.false_ne_true)]
  split <;> rfl

/-! ### Claim C1: a marker on an open channel closes it, then reports or forwards -/

/-- **C1.** A snapshot-marker for epoch `v` from a connected sender `r` whose
channel's closed-flag is still false sets that flag to true; if every
closed-flag of the epoch's task is then true the peer reports the epoch's
resource vector and forwards nothing, otherwise it forwards the marker on
every outbound channel (and reports nothing). -/
theorem marker_on_open_channel (s : PeerState) (v : Int) (r : PeerId)
    (hwf : s.WF) (hr : r ∈ s.connRemotes)
    (hopen : channelClosed s v (s.connRemotes.indexOf r) = false) :
    ∃ t', (handleMessage (.snapshot v) (some r) s).1.snapshotTasks.find?
        (fun k => k.id == v) = some t' ∧
      t'.receiveStatus.getD (s.connRemotes.indexOf r) false = true ∧
      (t'.receiveStatus.all (fun b => b) = true →
        (handleMessage (.snapshot v) (some r) s).2
          = ⟨[], [(v, t'.capturedResources)]⟩) ∧
      (t'.receiveStatus.all (fun b => b) = false →
        (handleMessage (.snapshot v) (some r) s).2
          = ⟨forwardAll s (.snapshot v), []⟩) := by
  have hidxlt : s.connRemotes.indexOf r < s.connRemotes.length :=
    List.indexOf_lt_length.mpr hr
  have hmsg : handleMessage (.snapshot v) (some r) s = handleSnapshot v (some r) s := rfl
  rcases hf : s.snapshotTasks.find? (fun t => t.id == v) with - | t
  · have hred := handleSnapshot_close_new v r s hf
    rw [hmsg, hred]
    refine ⟨{ freshTask v s with receiveStatus :=
        (freshTask v s).receiveStatus.set (s.connRemotes.indexOf r) true },
      ?_, ?_, ?_, ?_⟩
    · rw [List.find?_append, hf]
      simp [freshTask]
    · have hlen : (freshTask v s).receiveStatus.length = s.connRemotes.length := by
        simp [freshTask]
      have : s.connRemotes.indexOf r < (freshTask v s).receiveStatus.length := by
        omega
      simp [List.getD_eq_getElem?_getD, List.getElem?_set_self this]
    · intro hall
      have hc : ((((freshTask v s).receiveStatus.set
          (s.connRemotes.indexOf r) true).filter (fun k => !k)).length == 0) = true :=
        (completion_iff_all _).mpr hall
      rw [if_pos hc]
    · intro hall
      by_cases hc : ((((freshTask v s).receiveStatus.set
          (s.connRemotes.indexOf r) true).filter (fun k => !k)).length == 0) = true
      · rw [(completion_iff_all _).mp hc] at hall
        cases hall
      · rw [if_neg hc]
  · have hid : t.id = v := by simpa using List.find?_some hf
    have hopent : t.receiveStatus.getD (s.connRemotes.indexOf r) false = false := by
      unfold channelClosed at hopen
      rw [hf] at hopen
      exact hopen
    have hred := handleSnapshot_close_existing v r s t hf hopent
    rw [hmsg, hred]
    refine ⟨closeFlag (s.connRemotes.indexOf r) t, ?_, ?_, ?_, ?_⟩
    · exact find?_replaceFirst hf hid
    · have hlen : t.receiveStatus.length = s.connRemotes.length :=
        (hwf t (List.mem_of_find?_eq_some hf)).1
      have : s.connRemotes.indexOf r < t.receiveStatus.length := by omega
      simp [closeFlag, List.getD_eq_getElem?_getD, List.getElem?_set_self this]
    · intro hall
      simp only [closeFlag] at hall
      have hc : (((t.receiveStatus.set
          (s.connRemotes.indexOf r) true).filter (fun k => !k)).length == 0) = true :=
        (completion_iff_all _).mpr hall
      rw [if_pos hc, hid]
      rfl
    · intro hall
      simp only [closeFlag] at hall
      by_cases hc : (((t.receiveStatus.set
          (s.connRemotes.indexOf r) true).filter (fun k => !k)).length == 0) = true
      · rw [(completion_iff_all _).mp hc] at hall
        cases hall
      · rw [if_neg hc]

/-- Witness for C1: peer `exOpen` receives the epoch 5 marker from peer 2 on
its still-open channel 0; the other channel stays open, so it forwards. -/
theorem marker_on_open_channel_witness :
    ∃ t', (handleMessage (.snapshot 5) (some 2) exOpen).1.snapshotTasks.find?
        (fun k => k.id == 5) = some t' ∧
      t'.receiveStatus.getD (exOpen.connRemotes.indexOf 2) false = true ∧
      (t'.receiveStatus.all (fun b => b) = true →
        (handleMessage (.snapshot 5) (some 2) exOpen).2
          = ⟨[], [(5, t'.capturedResources)]⟩) ∧
      (t'.receiveStatus.all (fun b => b) = false →
        (handleMessage (.snapshot 5) (some 2) exOpen).2
          = ⟨forwardAll exOpen (.snapshot 5), []⟩) :=
  marker_on_open_channel exOpen 5 2 (by decide) (by decide) (by decide)

/-! ### Helper lemmas for the task-creation claim -/

theorem mem_replaceFirst {l : List SnapshotTask} {v : Int} {x y : SnapshotTask}
    (h : y ∈ replaceFirst v x l) : y ∈ l ∨ y = x := by
  induction l with
  | nil => simp [replaceFirst] at h
  | cons z zs ih =>
    unfold replaceFirst at h
    by_cases hz : z.id == v
    · rw [if_pos hz] at h
      rcases List.mem_cons.mp h with h1 | h1
      · exact Or.inr h1
      · exact Or.inl (List.mem_cons_of_mem _ h1)
    · rw [if_neg hz] at h
      rcases List.mem_cons.mp h with h1 | h1
      · exact Or.inl (h1 ▸ List.mem_cons_self _ _)
      · rcases ih h1 with h2 | h2
        · exact Or.inl (List.mem_cons_of_mem _ h2)
        · exact Or.inr h2

theorem getD_zeros_append (n : Nat) (x : Int) :
    (List.replicate n (0 : Int) ++ [x]).getD n 0 = x := by
  rw [List.getD_eq_getElem?_getD]
  rw [List.getElem?_append_right (by simp)]
  simp

/-! ### Claim C2: the first marker creates the task; vector shape is kept -/

/-- **C2.** On a peer's first snapshot-marker for an epoch (from a sender or
the sender-less origination) the created `SnapshotTask` has closed-flags all
false, one per channel, and a resource vector of one zero per channel
followed by the current balance; exactly one task is appended, with that
vector.  Moreover every report any step emits carries a task vector of that
step's post-state, every step preserves each existing task's vector length
and final entry, and a report emitted directly from this state has length
channel-count + 1 with final entry the balance — so the vector eventually
reported for the epoch keeps that shape. -/
theorem first_marker_creates_task (s : PeerState) (v : Int)
    (remote : Option PeerId)
    (hnone : s.snapshotTasks.find? (fun t => t.id == v) = none) :
    (freshTask v s).receiveStatus = List.replicate s.connRemotes.length false ∧
    (freshTask v s).capturedResources
        = List.replicate s.connRemotes.length 0 ++ [s.resources] ∧
    (∃ t, (handleMessage (.snapshot v) remote s).1.snapshotTasks
          = s.snapshotTasks ++ [t] ∧
        t.id = v ∧
        t.receiveStatus.length = s.connRemotes.length ∧
        t.capturedResources
          = List.replicate s.connRemotes.length 0 ++ [s.resources]) ∧
    (∀ p ∈ (handleMessage (.snapshot v) remote s).2.reports,
        p.1 = v ∧ p.2.length = s.connRemotes.length + 1 ∧
          p.2.getD s.connRemotes.length 0 = s.resources) ∧
    (∀ (s₂ : PeerState) (m₂ : Msg) (r₂ : Option PeerId),
      ∀ t' ∈ (handleMessage m₂ r₂ s₂).1.snapshotTasks,
        (∃ t ∈ s₂.snapshotTasks, t'.id = t.id ∧
            t'.capturedResources.length = t.capturedResources.length ∧
            t'.capturedResources.getD s₂.connRemotes.length 0
              = t.capturedResources.getD s₂.connRemotes.length 0) ∨
          t'.capturedResources
            = List.replicate s₂.connRemotes.length 0 ++ [s₂.resources]) := by
  have hfreshflags : (freshTask v s).receiveStatus
      = List.replicate s.connRemotes.length false := by
    unfold freshTask
    simp [List.map_const']
  have hfreshcap : (freshTask v s).capturedResources
      = List.replicate s.connRemotes.length 0 ++ [s.resources] := by
    unfold freshTask
    simp [List.map_const']
  refine ⟨hfreshflags, hfreshcap, ?_, ?_, ?_⟩
  · rcases handleSnapshot_tasks_shape v remote s with ⟨t0, hf0, -⟩ |
      ⟨x, hxid, -, hxcap, hxlen, heq⟩ | ⟨t0, x, hf0, -, -, -⟩
    · rw [hnone] at hf0
      cases hf0
    · exact ⟨x, heq, hxid, hxlen, by rw [hxcap, hfreshcap]⟩
    · rw [hnone] at hf0
      cases hf0
  · rcases remote with - | r
    · have hrep : (handleMessage (.snapshot v) none s).2.reports = [] := by
        simp only [handleMessage, handleSnapshot, hnone, Option.getD_none,
          Option.isSome_none, Bool.false_eq_true, if_false]
      intro p hp
      rw [hrep] at hp
      cases hp
    · intro p hp
      have hp2 : p ∈ (handleSnapshot v (some r) s).2.reports := hp
      rw [handleSnapshot_close_new v r s hnone] at hp2
      by_cases hc : ((((freshTask v s).receiveStatus.set
          (s.connRemotes.indexOf r) true).filter (fun k => !k)).length == 0) = true
      · rw [if_pos hc] at hp2
        have hp3 : p = (v, (freshTask v s).capturedResources) := by
          simpa using hp2
        subst hp3
        refine ⟨rfl, ?_, ?_⟩
        · rw [hfreshcap]
          simp
        · rw [hfreshcap]
          exact getD_zeros_append _ _
      · rw [if_neg hc] at hp2
        exact absurd hp2 (by simp)
  · intro s₂ m₂ r₂ t' ht'
    cases m₂ with
    | resource a =>
      rcases r₂ with - | r
      · exact Or.inl ⟨t', ht', rfl, rfl, rfl⟩
      · rcases hfi : s₂.connRemotes.findIdx? (fun x => x == r) with - | idx
        · have hts : (handleMessage (.resource a) (some r) s₂).1.snapshotTasks
              = s₂.snapshotTasks := by
            simp only [handleMessage, handleResource, Option.some_bind, hfi]
          rw [hts] at ht'
          exact Or.inl ⟨t', ht', rfl, rfl, rfl⟩
        · have hts : (handleMessage (.resource a) (some r) s₂).1.snapshotTasks
              = s₂.snapshotTasks.map (creditTask idx a) := by
            simp only [handleMessage, handleResource, Option.some_bind, hfi]
          rw [hts] at ht'
          rcases List.mem_map.mp ht' with ⟨t, htl, rfl⟩
          left
          refine ⟨t, htl, creditTask_id idx a t, ?_, ?_⟩
          · unfold creditTask
            split
            · rfl
            · simp
          · have hlt : idx < s₂.connRemotes.length := findIdx?_lt_length hfi
            unfold creditTask
            split
            · rfl
            · dsimp only
              rw [List.getD_eq_getElem?_getD, List.getElem?_set_ne (by omega),
                List.getD_eq_getElem?_getD]
    | snapshot w =>
      have ht2 : t' ∈ (handleSnapshot w r₂ s₂).1.snapshotTasks := ht'
      rcases handleSnapshot_tasks_shape w r₂ s₂ with ⟨t0, -, heq⟩ |
        ⟨x, -, -, hxcap, -, heq⟩ | ⟨t0, x, hf0, hxid, hxcap, heq⟩
      · rw [heq] at ht2
        exact Or.inl ⟨t', ht2, rfl, rfl, rfl⟩
      · rw [heq] at ht2
        rcases List.mem_append.mp ht2 with h1 | h1
        · exact Or.inl ⟨t', h1, rfl, rfl, rfl⟩
        · right
          have hx : t' = x := by simpa using h1
          subst hx
          rw [hxcap]
          unfold freshTask
          simp [List.map_const']
      · rw [heq] at ht2
        rcases mem_replaceFirst ht2 with h1 | h1
        · exact Or.inl ⟨t', h1, rfl, rfl, rfl⟩
        · subst h1
          left
          refine ⟨t0, List.mem_of_find?_eq_some hf0, ?_, ?_, ?_⟩
          · have ht0 : t0.id = w := by simpa using List.find?_some hf0
            rw [hxid, ht0]
          · rw [hxcap]
          · rw [hxcap]

/-- Witness for C2: peer `exA` (no tasks) receives its first marker for
epoch 5 from peer 1. -/
theorem first_marker_creates_task_witness :
    (freshTask 5 exA).receiveStatus = List.replicate exA.connRemotes.length false ∧
    ∃ t, (handleMessage (.snapshot 5) (some 1) exA).1.snapshotTasks
          = exA.snapshotTasks ++ [t] ∧
        t.id = 5 ∧
        t.receiveStatus.length = exA.connRemotes.length ∧
        t.capturedResources
          = List.replicate exA.connRemotes.length 0 ++ [exA.resources] :=
  ⟨(first_marker_creates_task exA 5 (some 1) (by decide)).1,
   (first_marker_creates_task exA 5 (some 1) (by decide)).2.2.1⟩
